import Mathlib

/-!
# Verification of the manifest-server aggregation/broadcast core

This file shallowly embeds the core of the `manifest-server` repository
(Go) and settles the frozen claims C1..C10 about it.

Embedding conventions:
* Go `uint64` bitmasks become `Nat` (all values involved are tiny, far
  below 2^64, so no wrap-around can occur and no explicit `% 2^64` is
  needed; the bitwise operators `|||`/`&&&` agree with Go's).
* Protobuf message pointers (`*Status` etc.) become `Option` of a Lean
  structure; `none` is the Go typed-nil pointer.
* `proto.Equal` on two message pointers of the same generated type
  returns true when both are nil, false when exactly one is nil, and
  structural equality of contents otherwise; with `Option`-valued
  fields this is exactly decidable equality of the `Option`.
* `proto.Merge(dst, src)` (protobuf-go documented semantics) copies
  populated scalar fields of `src` over `dst` (a proto3 scalar is
  populated iff it differs from its default: 0, "", false), appends the
  elements of every list field of `src` to `dst`'s list, and merges
  populated singular message fields recursively (a nil `dst` message
  slot receives a deep copy of `src`'s message).
* Channels read by a single loop become explicit Lean lists of queued
  messages; the single-threaded actor loop becomes a step function on
  an explicit state.
* Go `float64` values in the METAR cardinal-direction computation are
  modelled as exact rationals (`ℚ`); `time.Time` instants are modelled
  as integers with a separately supplied calendar date.
-/

namespace ManifestServer

/-! ## Data-source change flags

Transcribed from `pkg/core/controller.go`:

  type DataSource uint64
  const (
    BurbleDataSource     DataSource = 0 << 1
    JumprunDataSource               = 1 << 1
    METARDataSource                 = 2 << 1
    WindsAloftDataSource            = 3 << 1
    SettingsDataSource              = 4 << 1
  )
-/

def BurbleDataSource : Nat := 0 <<< 1
def JumprunDataSource : Nat := 1 <<< 1
def METARDataSource : Nat := 2 <<< 1
def WindsAloftDataSource : Nat := 3 <<< 1
def SettingsDataSource : Nat := 4 <<< 1

/-- `pkg/server/grpc.go` refers to the settings/options category flag as
`core.OptionsDataSource`; the settings category's flag is the one
declared as `SettingsDataSource` in `pkg/core/controller.go` (the spec
names this single category "Settings/Options"). -/
def OptionsDataSource : Nat := SettingsDataSource

/-! ## Protobuf message model

The generated protobuf types are reconstructed from their use in
`pkg/server/grpc.go` (`constructUpdate`, `diff`, `processUpdates`).
Proto3 scalar fields are `String`/`Int`/`Bool`/`Nat`; message-typed
fields are `Option`; repeated fields are `List`. -/

structure Options where
  displayNicknames : Bool
  displayWeather : Bool
  displayWinds : Bool
  message : String
  messageColor : String
  deriving DecidableEq

structure Status where
  winds : String
  windsColor : String
  clouds : String
  cloudsColor : String
  weather : String
  weatherColor : String
  separation : String
  separationColor : String
  temperature : String
  temperatureColor : String
  deriving DecidableEq

structure JumprunOrigin where
  latitude : String
  longitude : String
  magneticDeviation : Int
  cameraHeight : Int
  deriving DecidableEq

structure JumprunTurn where
  distance : Int
  heading : Int
  deriving DecidableEq

structure JumprunPath where
  heading : Int
  exitDistance : Int
  offsetHeading : Int
  offsetDistance : Int
  turns : List JumprunTurn
  deriving DecidableEq

structure Jumprun where
  origin : Option JumprunOrigin
  path : Option JumprunPath
  deriving DecidableEq

structure WindsAloftSample where
  altitude : Int
  heading : Int
  speed : Int
  temperature : Int
  lightAndVariable : Bool
  deriving DecidableEq

structure WindsAloft where
  samples : List WindsAloftSample
  deriving DecidableEq

inductive JumperType where
  | experienced
  | videographer
  | tandemStudent
  | tandemInstructor
  | affStudent
  | affInstructor
  | coachStudent
  | coach
  deriving DecidableEq

structure Jumper where
  id : Nat
  type : JumperType
  name : String
  shortName : String
  nickname : String
  color : String
  repr : String
  deriving DecidableEq

structure JumperGroup where
  leader : Option Jumper
  members : List Jumper
  deriving DecidableEq

/-- The `oneof slot` of `LoadSlot`. -/
inductive LoadSlotValue where
  | jumper (j : Jumper)
  | group (g : JumperGroup)
  deriving DecidableEq

structure LoadSlot where
  slot : Option LoadSlotValue
  deriving DecidableEq

structure Load where
  id : Nat
  aircraftName : String
  loadNumber : String
  callMinutes : Int
  callMinutesString : String
  slotsAvailable : Int
  slotsAvailableString : String
  isFueling : Bool
  isTurning : Bool
  isNoTime : Bool
  slots : List LoadSlot
  deriving DecidableEq

structure Loads where
  columnCount : Int
  loads : List Load
  deriving DecidableEq

/-- The top-level streamed message: one optional slot per category. -/
structure ManifestUpdate where
  status : Option Status
  options : Option Options
  jumprun : Option Jumprun
  windsAloft : Option WindsAloft
  loads : Option Loads
  deriving DecidableEq

/-! ## Diff suppression

Transcribed from `pkg/server/grpc.go`:

  func (x *ManifestUpdate) diff(y *ManifestUpdate) bool {
    if proto.Equal(x.Status, y.Status)         { x.Status = nil }
    if proto.Equal(x.Options, y.Options)       { x.Options = nil }
    if proto.Equal(x.Jumprun, y.Jumprun)       { x.Jumprun = nil }
    if proto.Equal(x.WindsAloft, y.WindsAloft) { x.WindsAloft = nil }
    if proto.Equal(x.Loads, y.Loads)           { x.Loads = nil }
    return x.Status != nil || x.Options != nil || x.Jumprun != nil ||
      x.WindsAloft != nil || x.Loads != nil
  }

The Go method mutates `x` in place and returns whether anything is
left; here it returns the mutated message together with the Bool. -/

def ManifestUpdate.diff (x y : ManifestUpdate) : ManifestUpdate × Bool :=
  let x := if x.status = y.status then { x with status := none } else x
  let x := if x.options = y.options then { x with options := none } else x
  let x := if x.jumprun = y.jumprun then { x with jumprun := none } else x
  let x := if x.windsAloft = y.windsAloft then { x with windsAloft := none } else x
  let x := if x.loads = y.loads then { x with loads := none } else x
  (x, x.status.isSome || x.options.isSome || x.jumprun.isSome ||
    x.windsAloft.isSome || x.loads.isSome)

/-! ## proto.Merge

`processUpdates` calls `proto.Merge(lastUpdate, u)`.  The following
definitions embed the documented protobuf-go merge semantics for the
message types above: populated scalars of `src` overwrite `dst`
(a proto3 scalar is populated iff non-default), list elements of `src`
are appended to `dst`'s list, populated singular message fields are
merged recursively (into a fresh empty message when `dst`'s slot is
nil, which yields a deep copy of `src`'s value). -/

def mergeString (dst src : String) : String := if src = "" then dst else src

def mergeInt (dst src : Int) : Int := if src = 0 then dst else src

def mergeBool (dst src : Bool) : Bool := if src = false then dst else src

/-- Merge an optional (pointer-valued) message field: a nil `src` slot
leaves `dst` alone; a populated `src` slot is merged into `dst`'s
message, or deep-copied when `dst`'s slot is nil. -/
def mergeOpt (mergeVal : α → α → α) (dst src : Option α) : Option α :=
  match src with
  | none => dst
  | some s =>
    match dst with
    | none => some s
    | some d => some (mergeVal d s)

def mergeStatus (dst src : Status) : Status where
  winds := mergeString dst.winds src.winds
  windsColor := mergeString dst.windsColor src.windsColor
  clouds := mergeString dst.clouds src.clouds
  cloudsColor := mergeString dst.cloudsColor src.cloudsColor
  weather := mergeString dst.weather src.weather
  weatherColor := mergeString dst.weatherColor src.weatherColor
  separation := mergeString dst.separation src.separation
  separationColor := mergeString dst.separationColor src.separationColor
  temperature := mergeString dst.temperature src.temperature
  temperatureColor := mergeString dst.temperatureColor src.temperatureColor

def mergeOptions (dst src : Options) : Options where
  displayNicknames := mergeBool dst.displayNicknames src.displayNicknames
  displayWeather := mergeBool dst.displayWeather src.displayWeather
  displayWinds := mergeBool dst.displayWinds src.displayWinds
  message := mergeString dst.message src.message
  messageColor := mergeString dst.messageColor src.messageColor

def mergeJumprunOrigin (dst src : JumprunOrigin) : JumprunOrigin where
  latitude := mergeString dst.latitude src.latitude
  longitude := mergeString dst.longitude src.longitude
  magneticDeviation := mergeInt dst.magneticDeviation src.magneticDeviation
  cameraHeight := mergeInt dst.cameraHeight src.cameraHeight

def mergeJumprunPath (dst src : JumprunPath) : JumprunPath where
  heading := mergeInt dst.heading src.heading
  exitDistance := mergeInt dst.exitDistance src.exitDistance
  offsetHeading := mergeInt dst.offsetHeading src.offsetHeading
  offsetDistance := mergeInt dst.offsetDistance src.offsetDistance
  turns := dst.turns ++ src.turns

def mergeJumprun (dst src : Jumprun) : Jumprun where
  origin := mergeOpt mergeJumprunOrigin dst.origin src.origin
  path := mergeOpt mergeJumprunPath dst.path src.path

def mergeWindsAloft (dst src : WindsAloft) : WindsAloft where
  samples := dst.samples ++ src.samples

def mergeLoads (dst src : Loads) : Loads where
  columnCount := mergeInt dst.columnCount src.columnCount
  loads := dst.loads ++ src.loads

/-- `proto.Merge(dst, src)` at the `ManifestUpdate` top level. -/
def mergeManifestUpdate (dst src : ManifestUpdate) : ManifestUpdate where
  status := mergeOpt mergeStatus dst.status src.status
  options := mergeOpt mergeOptions dst.options src.options
  jumprun := mergeOpt mergeJumprun dst.jumprun src.jumprun
  windsAloft := mergeOpt mergeWindsAloft dst.windsAloft src.windsAloft
  loads := mergeOpt mergeLoads dst.loads src.loads

/-! ## constructUpdate

`constructUpdate` (pkg/server/grpc.go) assembles a fresh
`ManifestUpdate` containing exactly the categories selected by the
change bitmask:

  const optionsSources = core.OptionsDataSource
  if source&optionsSources != 0    { u.Options = ... }
  const statusSources = core.METARDataSource | core.WindsAloftDataSource
  if source&statusSources != 0     { u.Status = ... }
  const jumprunSources = core.JumprunDataSource
  if source&jumprunSources != 0    { u.Jumprun = ... }
  const windsAloftSources = core.WindsAloftDataSource
  if source&windsAloftSources != 0 { u.WindsAloft = ... }
  const loadsSources = core.BurbleDataSource
  if source&loadsSources != 0      { u.Loads = ... }

The category values themselves are produced by translating the
producers' current state (settings, METAR/winds strings, jumprun
geometry, Burble loads); that translation is a pure rendering of
producer-owned state, out of this core's scope (spec §1/§6), so the
producers' current translated values are supplied as an opaque
environment. -/

/-- The producers' current category values, as the proto messages that
`constructUpdate` would build from them at this instant. -/
structure Env where
  options : Options
  status : Status
  jumprun : Jumprun
  windsAloft : WindsAloft
  loads : Loads

def constructUpdate (env : Env) (source : Nat) : ManifestUpdate where
  options := if source &&& OptionsDataSource ≠ 0 then some env.options else none
  status :=
    if source &&& (METARDataSource ||| WindsAloftDataSource) ≠ 0 then
      some env.status
    else none
  jumprun := if source &&& JumprunDataSource ≠ 0 then some env.jumprun else none
  windsAloft :=
    if source &&& WindsAloftDataSource ≠ 0 then some env.windsAloft else none
  loads := if source &&& BurbleDataSource ≠ 0 then some env.loads else none

/-! ## The broadcast actor loop

`processUpdates` (pkg/server/grpc.go) is a single goroutine selecting
over the admission channels and the change-notification channel.  Its
state is the next client id, the registry of subscriber channels, and
`lastUpdate`.  Each subscriber channel is modelled as the list of
messages pushed to it so far (oldest first).  The channel drain

  case source = <-c:
  drain:
    for {
      select {
      case s := <-c: source |= s
      default: break drain
      }
    }

consumes every notification already queued, OR-ing the masks, so a
notification command carries the first received mask together with the
list of masks pending on the channel at that moment. -/

structure ActorState where
  clientID : Nat
  clients : List (Nat × List ManifestUpdate)
  lastUpdate : ManifestUpdate
  deriving DecidableEq

/-- One command dequeued by the actor's select loop. -/
inductive Command where
  | addClient
  | removeClient (id : Nat)
  | changed (source : Nat) (pending : List Nat)

/-- Observable effects of processing one command, in program order. -/
inductive Event where
  | addReply (id : Nat)
  | pushBaseline (id : Nat) (u : ManifestUpdate)
  | removeReply (id : Nat)
  | computeUpdate (source : Nat)
  | broadcast (u : ManifestUpdate)

/-- The coalescing drain: OR every pending mask into the accumulator. -/
def drainMasks (source : Nat) (pending : List Nat) : Nat :=
  match pending with
  | [] => source
  | s :: rest => drainMasks (source ||| s) rest

/-- One iteration of the `processUpdates` select loop. -/
def actorStep (env : Env) (st : ActorState) :
    Command → ActorState × List Event
  | .addClient =>
    let id := st.clientID + 1
    ({ st with
        clientID := id
        clients := st.clients ++ [(id, [st.lastUpdate])] },
      [.addReply id, .pushBaseline id st.lastUpdate])
  | .removeClient id =>
    ({ st with clients := st.clients.filter (fun cl => cl.1 ≠ id) },
      [.removeReply id])
  | .changed source pending =>
    let combined := drainMasks source pending
    let u := constructUpdate env combined
    let d := u.diff st.lastUpdate
    if d.2 then
      ({ st with
          clients := st.clients.map (fun cl => (cl.1, cl.2 ++ [d.1]))
          lastUpdate := mergeManifestUpdate st.lastUpdate d.1 },
        [.computeUpdate combined, .broadcast d.1])
    else
      (st, [.computeUpdate combined])

/-- Run the actor over a sequence of commands, each seeing the
producers' values current at that iteration, collecting all events. -/
def actorRun (st : ActorState) :
    List (Env × Command) → ActorState × List Event
  | [] => (st, [])
  | (env, cmd) :: rest =>
    let r := actorStep env st cmd
    let far := actorRun r.1 rest
    (far.1, r.2 ++ far.2)

/-- The initial actor state: no clients admitted yet, and `lastUpdate`
holds the initial baseline `constructUpdate(source)` built from the
mask of the enabled sources (`processUpdates` lines 336-347). -/
def actorInit (env : Env) (initialSource : Nat) : ActorState where
  clientID := 0
  clients := []
  lastUpdate := constructUpdate env initialSource

/-! ## The subscriber admission protocol

`addClient` and `removeClient` (pkg/server/grpc.go 402-417):

  func (s *manifestServiceServer) addClient(c chan *ManifestUpdate) uint64 {
    request := addClientRequest{
      reply:   make(chan addClientResponse),
      updates: c,
    }
    response := <-request.reply
    return response.id
  }

  func (s *manifestServiceServer) removeClient(id uint64) {
    request := removeClientRequest{
      reply: make(chan removeClientResponse),
      id:    id,
    }
    <-request.reply
  }

Each is a sequence of blocking channel operations; the freshly made
`reply` channel can receive a value only from the actor, and the actor
(`processUpdates`) learns of a reply channel only by dequeuing the
request that carries it from `addClientChan`/`removeClientChan`.  The
interaction of one caller with the running actor is modelled as a small
transition system: `queued` counts copies of the request in flight on
the admission channel, `delivered` records that the actor has dequeued
it, and `replies` counts messages available on the request's reply
channel. -/

inductive ChanName where
  | admissionChan
  | replyChan
  deriving DecidableEq

inductive ChanOp where
  | send (ch : ChanName)
  | recv (ch : ChanName)
  deriving DecidableEq

/-- The channel operations performed by `addClient`, in program order,
transcribed from the source: the request struct is built locally and
then `<-request.reply` executes.  No send on `addClientChan` occurs in
the function body. -/
def addClientOps : List ChanOp := [.recv .replyChan]

/-- The channel operations performed by `removeClient`, transcribed
from the source: it likewise only executes `<-request.reply`. -/
def removeClientOps : List ChanOp := [.recv .replyChan]

structure AdmissionState where
  caller : List ChanOp
  queued : Nat
  delivered : Bool
  replies : Nat
  deriving DecidableEq

/-- The caller starts at the head of its operation list; nothing is in
flight and the actor knows nothing of the request. -/
def admissionInit (prog : List ChanOp) : AdmissionState where
  caller := prog
  queued := 0
  delivered := false
  replies := 0

/-- Interleaved execution of the caller with the running actor loop.
The caller may execute its next channel operation when it is enabled
(a send onto the buffered admission channel always is; a receive needs
a message present).  The actor may, at any time, dequeue a queued
request and synchronously reply on the reply channel it carries — the
only way any message ever appears on that reply channel. -/
inductive AdmissionStep : AdmissionState → AdmissionState → Prop where
  | callerSend (s : AdmissionState) (rest : List ChanOp)
      (h : s.caller = ChanOp.send ChanName.admissionChan :: rest) :
      AdmissionStep s { s with caller := rest, queued := s.queued + 1 }
  | callerRecv (s : AdmissionState) (rest : List ChanOp)
      (h : s.caller = ChanOp.recv ChanName.replyChan :: rest)
      (hr : 0 < s.replies) :
      AdmissionStep s { s with caller := rest, replies := s.replies - 1 }
  | actorServe (s : AdmissionState)
      (hq : 0 < s.queued) :
      AdmissionStep s
        { s with queued := s.queued - 1, delivered := true,
                 replies := s.replies + 1 }

/-- States reachable from the start of one `addClient`/`removeClient`
call while the actor loop runs. -/
inductive AdmissionReachable (prog : List ChanOp) : AdmissionState → Prop where
  | init : AdmissionReachable prog (admissionInit prog)
  | step (s t : AdmissionState) (hs : AdmissionReachable prog s)
      (hstep : AdmissionStep s t) : AdmissionReachable prog t

/-- A call has completed when it has executed all its operations. -/
def AdmissionState.completed (s : AdmissionState) : Prop := s.caller = []

/-! ## The day-boundary scheduler

`runAtSunriseSunset` (pkg/core/controller.go 265-301): two `[]int{y,m,d}`
markers, one tick every 20 seconds; each tick recomputes today's
sunrise/sunset instants and fires each transition when the current time
has reached the instant and the marker differs from the instant's date
(compared with `reflect.DeepEqual`); on a `SunriseAndSunsetTimes` error
(e.g. unknown location) the goroutine logs and `return`s.

A tick's inputs are the current instant and the two computed event
instants with their calendar dates; instants are modelled as integers
(`now.Equal(t) || now.After(t)` is `t ≤ now`), dates as `[y, m, d]`
lists exactly as in the source. -/

structure TickInput where
  now : Int
  sunrise : Int
  sunset : Int
  sunriseDate : List Int
  sunsetDate : List Int

structure SchedState where
  lastSunrise : List Int
  lastSunset : List Int
  deriving DecidableEq

def schedInit : SchedState where
  lastSunrise := [0, 0, 0]
  lastSunset := [0, 0, 0]

/-- One successful tick body: the sunset check runs first, then the
sunrise check, each guarded by its own marker.  Returns the new marker
state and whether the sunset/sunrise transitions fired. -/
def schedTick (st : SchedState) (i : TickInput) : SchedState × Bool × Bool :=
  let sunsetFires := (i.sunset ≤ i.now) && (st.lastSunset ≠ i.sunsetDate)
  let st := if sunsetFires then { st with lastSunset := i.sunsetDate } else st
  let sunriseFires := (i.sunrise ≤ i.now) && (st.lastSunrise ≠ i.sunriseDate)
  let st := if sunriseFires then { st with lastSunrise := i.sunriseDate } else st
  (st, sunsetFires, sunriseFires)

/-- The scheduler loop over a sequence of ticks; a tick at which
`SunriseAndSunsetTimes` fails (location unknown) is `none`.  Returns the
final marker state with the total counts of sunset and sunrise firings.
On an error tick the source `return`s from the goroutine, so the
remaining ticks are never processed. -/
def runSched (st : SchedState) : List (Option TickInput) → SchedState × Nat × Nat
  | [] => (st, 0, 0)
  | none :: _rest => (st, 0, 0)
  | some i :: rest =>
    let r := schedTick st i
    let far := runSched r.1 rest
    (far.1, (if r.2.1 then 1 else 0) + far.2.1, (if r.2.2 then 1 else 0) + far.2.2)

/-- Sunset firing count over a run of successful ticks. -/
def sunsetCount (st : SchedState) : List TickInput → Nat
  | [] => 0
  | i :: rest =>
    let r := schedTick st i
    (if r.2.1 then 1 else 0) + sunsetCount r.1 rest

/-- Sunrise firing count over a run of successful ticks. -/
def sunriseCount (st : SchedState) : List TickInput → Nat
  | [] => 0
  | i :: rest =>
    let r := schedTick st i
    (if r.2.2 then 1 else 0) + sunriseCount r.1 rest

/-! ## The legacy static-content updater

`EnableLegacySupport` (pkg/server/legacy.go 345-387) runs a goroutine
that drains coalesced notifications exactly like the broadcast actor
and regenerates static endpoints:

  if source&core.WindsAloftDataSource != 0 { s.updateWindsStaticData() }
  if source&core.JumprunDataSource != 0    { s.updateJumprunStaticData() }
  s.updateManifestStaticData()
-/

structure LegacyRegen where
  windsAloftRegen : Bool
  jumprunRegen : Bool
  manifestRegen : Bool
  deriving DecidableEq

/-- Which static endpoints one coalesced legacy notification batch
regenerates. -/
def legacyStep (source : Nat) (pending : List Nat) : LegacyRegen :=
  let combined := drainMasks source pending
  { windsAloftRegen := combined &&& WindsAloftDataSource != 0
    jumprunRegen := combined &&& JumprunDataSource != 0
    manifestRegen := true }

/-! ## METAR cardinal direction

`CardinalDirection` (pkg/metar/controller.go 33-41):

  func CardinalDirection(degrees float64) string {
    for degrees < 0.0 {
      degrees += 360.0
    }
    n := math.Floor(math.Mod(degrees+11.25, 360.0) / 22.5)
    return cardinalDirections[int(n)]
  }

The function operates on `float64`.  Two models of it follow.
`normalizeDegrees` runs the loop over exact rational arithmetic — an
idealization that terminates for every input.  That idealization is
*not* faithful to the loop's termination behaviour: IEEE 754 binary64
addition rounds, and for finite inputs of magnitude at least about
`2^62` the increment 360 is below half a unit in the last place, so
`degrees += 360.0` returns `degrees` unchanged and the loop never makes
progress.  `roundAtUlp`, `fadd360e20` and `normalizeFloatLoop` below
model the float64 loop faithfully at such an input (`-1e20`) and
exhibit the divergence; the exact model is retained for the post-loop
index computation and for inputs on which the loop exits. -/

def cardinalDirections : List String :=
  ["N", "NNE", "NE", "ENE", "E", "ESE", "SE", "SSE",
   "S", "SSW", "SW", "WSW", "W", "WNW", "NW", "NNW"]

/-- The normalization loop `for degrees < 0.0 { degrees += 360.0 }`
under exact rational arithmetic (idealized: real float64 addition
rounds, see `normalizeFloatLoop`). -/
def normalizeDegrees (d : ℚ) : ℚ :=
  if d < 0 then normalizeDegrees (d + 360) else d
termination_by (⌈-d⌉).toNat
decreasing_by
  rename_i h
  have h1 : (0 : ℚ) < -d := by linarith
  have h2 : (0 : ℤ) < ⌈-d⌉ := Int.ceil_pos.mpr h1
  have h3 : -(d + 360) = -d - (360 : ℤ) := by push_cast; ring
  have h4 : ⌈-(d + 360)⌉ = ⌈-d⌉ - 360 := by
    rw [h3, Int.ceil_sub_int]
  omega

/-- Go's `math.Mod(x, y)`: the remainder with the sign of `x`; for
`x ≥ 0` and `y > 0` (the only case reached here) this equals
`x - y * ⌊x / y⌋`. -/
def goMod (x y : ℚ) : ℚ := x - y * ⌊x / y⌋

/-- Go slice indexing `l[n]` for an `int` index converted from a float:
out-of-range (including negative) panics, modelled as `none`. -/
def goSliceIndex (l : List String) (n : ℤ) : Option String :=
  if n < 0 then none else l.get? n.toNat

/-- The index `int(math.Floor(math.Mod(degrees+11.25, 360.0) / 22.5))`
computed on the normalized value. -/
def cardinalIndex (degrees : ℚ) : ℤ :=
  ⌊goMod (normalizeDegrees degrees + 11.25) 360 / 22.5⌋

/-- `CardinalDirection` with the loop and the index computation taken
over exact arithmetic; meaningful for the inputs on which the float64
loop exits (in particular every non-negative input, where the loop body
never executes at all). -/
def CardinalDirection (degrees : ℚ) : Option String :=
  goSliceIndex cardinalDirections (cardinalIndex degrees)

/-- Round-to-nearest onto the grid of binary64 values of one binade,
whose spacing (unit in the last place) is `ulp`.  IEEE 754 addition is
correctly rounded: when the exact sum of two representable values lies
in a binade with ulp `u`, the computed sum is the multiple of `u`
nearest that exact sum (ties go to the even mantissa; no tie arises at
the inputs used below, so Mathlib's half-up `round` agrees). -/
def roundAtUlp (ulp x : ℚ) : ℚ := ulp * round (x / ulp)

/-- The float64 statement `degrees += 360.0` for `degrees` in the
binade `(-2^67, -2^66]` containing `-1e20`: the representable values
there are the multiples of `2^14 = 16384` (`1e20 = 2^20 * 5^20` with
`5^20 < 2^53` is itself representable), and for the inputs considered
the exact sum `degrees + 360` stays in that binade, so the addition
rounds it to the nearest multiple of `2^14`. -/
def fadd360e20 (d : ℚ) : ℚ := roundAtUlp (2 ^ 14) (d + 360)

/-- The normalization loop `for degrees < 0.0 { degrees += 360.0 }`
with the float addition supplied as `step` and an iteration budget:
`none` means the value is still negative after `fuel` iterations (the
loop is still running); `some` is the loop's exit value.  A
non-negative input exits at once without performing any arithmetic. -/
def normalizeFloatLoop (step : ℚ → ℚ) : Nat → ℚ → Option ℚ
  | 0, d => if d < 0 then none else some d
  | fuel + 1, d =>
    if d < 0 then normalizeFloatLoop step fuel (step d) else some d

/-! ## Auxiliary accessors and concrete sample data -/

/-- The five state categories of a `ManifestUpdate`. -/
inductive Category where
  | status
  | options
  | jumprun
  | windsAloft
  | loads
  deriving DecidableEq

/-- Whether a category slot of the message is populated. -/
def ManifestUpdate.hasCat (u : ManifestUpdate) : Category → Bool
  | .status => u.status.isSome
  | .options => u.options.isSome
  | .jumprun => u.jumprun.isSome
  | .windsAloft => u.windsAloft.isSome
  | .loads => u.loads.isSome

/-- The message with every category slot nil. -/
def emptyUpdate : ManifestUpdate where
  status := none
  options := none
  jumprun := none
  windsAloft := none
  loads := none

/-- Identifiers assigned by `addReply` events, in order. -/
def assignedIds (evs : List Event) : List Nat :=
  evs.filterMap fun e =>
    match e with
    | .addReply i => some i
    | _ => none

/-- The mask of a `computeUpdate` event. -/
def Event.computedMask : Event → Option Nat
  | .computeUpdate s => some s
  | _ => none

/-- Whether an event is a fan-out of an update to the subscribers. -/
def Event.isBroadcast : Event → Bool
  | .broadcast _ => true
  | _ => false

/-- Concrete sample category values used to instantiate witnesses. -/
def sampleOptions : Options where
  displayNicknames := false
  displayWeather := true
  displayWinds := true
  message := "welcome"
  messageColor := "#ffffff"

def sampleStatus : Status where
  winds := "5 MPH from 270° (W)"
  windsColor := "#ffffff"
  clouds := "clear"
  cloudsColor := "#ffffff"
  weather := "clear"
  weatherColor := "#ffffff"
  separation := "Separation is 45 seconds"
  separationColor := "#ffffff"
  temperature := "21℃ / 69℉"
  temperatureColor := "#ffffff"

def sampleJumprun : Jumprun where
  origin := some { latitude := "42.5700", longitude := "-72.2885",
                   magneticDeviation := -14, cameraHeight := 0 }
  path := none

def sampleWindsAloft : WindsAloft where
  samples := [{ altitude := 3000, heading := 270, speed := 12,
                temperature := 10, lightAndVariable := false }]

def sampleLoadA : Load where
  id := 101
  aircraftName := "Twin Otter"
  loadNumber := "1"
  callMinutes := 15
  callMinutesString := "15"
  slotsAvailable := 4
  slotsAvailableString := "4 slots"
  isFueling := false
  isTurning := false
  isNoTime := false
  slots := []

def sampleLoadB : Load where
  id := 102
  aircraftName := "Twin Otter"
  loadNumber := "2"
  callMinutes := 35
  callMinutesString := "35"
  slotsAvailable := 9
  slotsAvailableString := "9 slots"
  isFueling := false
  isTurning := true
  isNoTime := false
  slots := []

def sampleEnv : Env where
  options := sampleOptions
  status := sampleStatus
  jumprun := sampleJumprun
  windsAloft := sampleWindsAloft
  loads := { columnCount := 2, loads := [sampleLoadA] }

/-- A last-broadcast state whose loads category holds the list
`[sampleLoadA]`. -/
def exLast : ManifestUpdate where
  status := none
  options := none
  jumprun := none
  windsAloft := none
  loads := some { columnCount := 2, loads := [sampleLoadA] }

/-- A candidate whose loads category holds the list `[sampleLoadB]`
(the current full load list after a manifest change). -/
def exCand : ManifestUpdate where
  status := none
  options := none
  jumprun := none
  windsAloft := none
  loads := some { columnCount := 2, loads := [sampleLoadB] }

/-- A tick whose current time has passed both of today's events, on a
date no marker has recorded. -/
def goodTick : TickInput where
  now := 1000
  sunrise := 100
  sunset := 900
  sunriseDate := [2026, 10, 11]
  sunsetDate := [2026, 10, 11]

/-! ## Helper lemmas -/

theorem diff_fst (x y : ManifestUpdate) :
    (x.diff y).1 =
      { status := if x.status = y.status then none else x.status
        options := if x.options = y.options then none else x.options
        jumprun := if x.jumprun = y.jumprun then none else x.jumprun
        windsAloft := if x.windsAloft = y.windsAloft then none else x.windsAloft
        loads := if x.loads = y.loads then none else x.loads } := by
  simp only [ManifestUpdate.diff]
  by_cases h1 : x.status = y.status <;>
    by_cases h2 : x.options = y.options <;>
      by_cases h3 : x.jumprun = y.jumprun <;>
        by_cases h4 : x.windsAloft = y.windsAloft <;>
          by_cases h5 : x.loads = y.loads <;>
            simp [h1, h2, h3, h4, h5]

theorem diff_snd (x y : ManifestUpdate) :
    (x.diff y).2 =
      ((x.diff y).1.status.isSome || (x.diff y).1.options.isSome ||
        (x.diff y).1.jumprun.isSome || (x.diff y).1.windsAloft.isSome ||
        (x.diff y).1.loads.isSome) := rfl

theorem diff_snd_false_iff (x y : ManifestUpdate) :
    (x.diff y).2 = false ↔ (x.diff y).1 = emptyUpdate := by
  rw [diff_snd]
  cases hd : (x.diff y).1 with
  | mk s o j w l =>
    cases s <;> cases o <;> cases j <;> cases w <;> cases l <;>
      simp [emptyUpdate]

theorem mergeOpt_isSome (f : α → α → α) (dst src : Option α) :
    (mergeOpt f dst src).isSome = (dst.isSome || src.isSome) := by
  cases src <;> cases dst <;> rfl

theorem merge_hasCat (a b : ManifestUpdate) (c : Category) :
    (mergeManifestUpdate a b).hasCat c = (a.hasCat c || b.hasCat c) := by
  cases c <;>
    simp [ManifestUpdate.hasCat, mergeManifestUpdate, mergeOpt_isSome]

theorem mergeOpt_none_src (f : α → α → α) (dst : Option α) :
    mergeOpt f dst none = dst := rfl

theorem drainMasks_testBit (m : Nat) (pending : List Nat) (k : Nat) :
    (drainMasks m pending).testBit k =
      (m.testBit k || pending.any fun s => s.testBit k) := by
  induction pending generalizing m with
  | nil => simp [drainMasks]
  | cons s rest ih =>
    simp only [drainMasks, ih, Nat.testBit_or, List.any_cons]
    cases m.testBit k <;> cases s.testBit k <;> simp

theorem schedTick_sunsetFired (st : SchedState) (i : TickInput) :
    (schedTick st i).2.1 =
      ((i.sunset ≤ i.now) && (st.lastSunset ≠ i.sunsetDate)) := rfl

theorem schedTick_sunriseFired (st : SchedState) (i : TickInput) :
    (schedTick st i).2.2 =
      ((i.sunrise ≤ i.now) && (st.lastSunrise ≠ i.sunriseDate)) := by
  simp only [schedTick]
  split <;> rfl

theorem schedTick_lastSunset (st : SchedState) (i : TickInput) :
    (schedTick st i).1.lastSunset =
      (if (i.sunset ≤ i.now) && (st.lastSunset ≠ i.sunsetDate) then
        i.sunsetDate else st.lastSunset) := by
  simp only [schedTick]
  split <;> split <;> rfl

theorem schedTick_lastSunrise (st : SchedState) (i : TickInput) :
    (schedTick st i).1.lastSunrise =
      (if (i.sunrise ≤ i.now) && (st.lastSunrise ≠ i.sunriseDate) then
        i.sunriseDate else st.lastSunrise) := by
  simp only [schedTick]
  split <;> split <;> rfl

theorem sunsetCount_zero (st : SchedState) (ticks : List TickInput)
    (d : List Int) (hm : st.lastSunset = d)
    (h : ∀ t ∈ ticks, t.sunsetDate = d) :
    sunsetCount st ticks = 0 := by
  induction ticks generalizing st with
  | nil => rfl
  | cons i rest ih =>
    have hdi : i.sunsetDate = d := h i (List.mem_cons_self i rest)
    have hfire : (schedTick st i).2.1 = false := by
      rw [schedTick_sunsetFired, hm, hdi]
      simp
    have hkeep : (schedTick st i).1.lastSunset = d := by
      rw [schedTick_lastSunset, hm, hdi]
      simp
    simp only [sunsetCount, hfire, if_neg Bool.false_ne_true]
    simpa using ih _ hkeep fun t ht => h t (List.mem_cons_of_mem i ht)

theorem sunriseCount_zero (st : SchedState) (ticks : List TickInput)
    (d : List Int) (hm : st.lastSunrise = d)
    (h : ∀ t ∈ ticks, t.sunriseDate = d) :
    sunriseCount st ticks = 0 := by
  induction ticks generalizing st with
  | nil => rfl
  | cons i rest ih =>
    have hdi : i.sunriseDate = d := h i (List.mem_cons_self i rest)
    have hfire : (schedTick st i).2.2 = false := by
      rw [schedTick_sunriseFired, hm, hdi]
      simp
    have hkeep : (schedTick st i).1.lastSunrise = d := by
      rw [schedTick_lastSunrise, hm, hdi]
      simp
    simp only [sunriseCount, hfire, if_neg Bool.false_ne_true]
    simpa using ih _ hkeep fun t ht => h t (List.mem_cons_of_mem i ht)

theorem sunsetCount_le_one (st : SchedState) (ticks : List TickInput)
    (d : List Int) (h : ∀ t ∈ ticks, t.sunsetDate = d) :
    sunsetCount st ticks ≤ 1 := by
  induction ticks generalizing st with
  | nil => exact Nat.zero_le 1
  | cons i rest ih =>
    have hdi : i.sunsetDate = d := h i (List.mem_cons_self i rest)
    have hrest : ∀ t ∈ rest, t.sunsetDate = d :=
      fun t ht => h t (List.mem_cons_of_mem i ht)
    by_cases hfire : (schedTick st i).2.1 = true
    · have hmark : (schedTick st i).1.lastSunset = d := by
        rw [schedTick_sunsetFired] at hfire
        rw [schedTick_lastSunset, hfire, hdi]
        simp
      have hz : sunsetCount (schedTick st i).1 rest = 0 :=
        sunsetCount_zero _ _ d hmark hrest
      simp [sunsetCount, hfire, hz]
    · have hfire' : (schedTick st i).2.1 = false :=
        Bool.eq_false_iff.mpr hfire
      simp only [sunsetCount, hfire', if_neg Bool.false_ne_true]
      simpa using ih (schedTick st i).1 hrest

theorem sunriseCount_le_one (st : SchedState) (ticks : List TickInput)
    (d : List Int) (h : ∀ t ∈ ticks, t.sunriseDate = d) :
    sunriseCount st ticks ≤ 1 := by
  induction ticks generalizing st with
  | nil => exact Nat.zero_le 1
  | cons i rest ih =>
    have hdi : i.sunriseDate = d := h i (List.mem_cons_self i rest)
    have hrest : ∀ t ∈ rest, t.sunriseDate = d :=
      fun t ht => h t (List.mem_cons_of_mem i ht)
    by_cases hfire : (schedTick st i).2.2 = true
    · have hmark : (schedTick st i).1.lastSunrise = d := by
        rw [schedTick_sunriseFired] at hfire
        rw [schedTick_lastSunrise, hfire, hdi]
        simp
      have hz : sunriseCount (schedTick st i).1 rest = 0 :=
        sunriseCount_zero _ _ d hmark hrest
      simp [sunriseCount, hfire, hz]
    · have hfire' : (schedTick st i).2.2 = false :=
        Bool.eq_false_iff.mpr hfire
      simp only [sunriseCount, hfire', if_neg Bool.false_ne_true]
      simpa using ih (schedTick st i).1 hrest

theorem actorStep_clientID_le (env : Env) (st : ActorState) (cmd : Command) :
    st.clientID ≤ (actorStep env st cmd).1.clientID := by
  cases cmd with
  | addClient => exact Nat.le_succ _
  | removeClient id => exact Nat.le_refl _
  | changed m pending =>
    simp only [actorStep]
    split <;> exact Nat.le_refl _

theorem actorRun_clientID_le (st : ActorState) (tr : List (Env × Command)) :
    st.clientID ≤ (actorRun st tr).1.clientID := by
  induction tr generalizing st with
  | nil => exact Nat.le_refl _
  | cons p rest ih =>
    exact Nat.le_trans (actorStep_clientID_le p.1 st p.2) (ih _)

theorem actorStep_assigned (env : Env) (st : ActorState) (cmd : Command) :
    ∀ i ∈ assignedIds (actorStep env st cmd).2,
      st.clientID < i ∧ i ≤ (actorStep env st cmd).1.clientID := by
  cases cmd with
  | addClient =>
    intro i hi
    simp only [actorStep] at hi ⊢
    simp [assignedIds] at hi
    omega
  | removeClient id =>
    intro i hi
    simp [actorStep, assignedIds] at hi
  | changed m pending =>
    intro i hi
    simp only [actorStep] at hi ⊢
    split at hi <;> simp [assignedIds] at hi

theorem actorRun_assigned (st : ActorState) (tr : List (Env × Command)) :
    ∀ i ∈ assignedIds (actorRun st tr).2,
      st.clientID < i ∧ i ≤ (actorRun st tr).1.clientID := by
  induction tr generalizing st with
  | nil => intro i hi; simp [actorRun, assignedIds] at hi
  | cons p rest ih =>
    intro i hi
    simp only [actorRun] at hi ⊢
    rw [assignedIds, List.filterMap_append] at hi
    rcases List.mem_append.mp hi with h | h
    · have := actorStep_assigned p.1 st p.2 i h
      exact ⟨this.1, Nat.le_trans this.2 (actorRun_clientID_le _ rest)⟩
    · have := ih (actorStep p.1 st p.2).1 i h
      exact ⟨Nat.lt_of_le_of_lt (actorStep_clientID_le p.1 st p.2) this.1,
        this.2⟩

theorem actorStep_registry_bound (env : Env) (st : ActorState) (cmd : Command)
    (h : ∀ p ∈ st.clients, p.1 ≤ st.clientID) :
    ∀ p ∈ (actorStep env st cmd).1.clients,
      p.1 ≤ (actorStep env st cmd).1.clientID := by
  cases cmd with
  | addClient =>
    intro p hp
    simp only [actorStep, List.mem_append, List.mem_singleton] at hp ⊢
    rcases hp with hp | hp
    · exact Nat.le_succ_of_le (h p hp)
    · subst hp; exact Nat.le_refl _
  | removeClient id =>
    intro p hp
    simp only [actorStep] at hp ⊢
    exact h p (List.mem_of_mem_filter hp)
  | changed m pending =>
    intro p hp
    have hid : (actorStep env st (Command.changed m pending)).1.clientID
        = st.clientID := by
      simp only [actorStep]; split <;> rfl
    rw [hid]
    simp only [actorStep] at hp
    split at hp
    · simp only [List.mem_map] at hp
      rcases hp with ⟨⟨q1, q2⟩, hq, rfl⟩
      exact h (q1, q2) hq
    · exact h p hp

theorem actorRun_registry_bound (st : ActorState) (tr : List (Env × Command))
    (h : ∀ p ∈ st.clients, p.1 ≤ st.clientID) :
    ∀ p ∈ (actorRun st tr).1.clients, p.1 ≤ (actorRun st tr).1.clientID := by
  induction tr generalizing st with
  | nil => exact h
  | cons p rest ih =>
    exact ih _ (actorStep_registry_bound p.1 st p.2 h)

theorem merge_hasCat_right (a b : ManifestUpdate) (c : Category)
    (h : b.hasCat c = true) :
    (mergeManifestUpdate a b).hasCat c = true := by
  rw [merge_hasCat, h, Bool.or_true]

theorem merge_hasCat_left (a b : ManifestUpdate) (c : Category)
    (h : a.hasCat c = true) :
    (mergeManifestUpdate a b).hasCat c = true := by
  rw [merge_hasCat, h, Bool.true_or]

theorem actorStep_lastUpdate_hasCat (env : Env) (st : ActorState)
    (cmd : Command) (c : Category) (h : st.lastUpdate.hasCat c = true) :
    (actorStep env st cmd).1.lastUpdate.hasCat c = true := by
  cases cmd with
  | addClient => exact h
  | removeClient id => exact h
  | changed m pending =>
    simp only [actorStep]
    split
    · exact merge_hasCat_left _ _ _ h
    · exact h

theorem actorRun_lastUpdate_hasCat (st : ActorState)
    (tr : List (Env × Command)) (c : Category)
    (h : st.lastUpdate.hasCat c = true) :
    (actorRun st tr).1.lastUpdate.hasCat c = true := by
  induction tr generalizing st with
  | nil => exact h
  | cons p rest ih =>
    exact ih _ (actorStep_lastUpdate_hasCat p.1 st p.2 c h)

theorem actorRun_broadcast_hasCat (st : ActorState)
    (tr : List (Env × Command)) :
    ∀ u, Event.broadcast u ∈ (actorRun st tr).2 →
      ∀ c, u.hasCat c = true →
        (actorRun st tr).1.lastUpdate.hasCat c = true := by
  induction tr generalizing st with
  | nil => intro u hu; simp [actorRun] at hu
  | cons p rest ih =>
    intro u hu c hc
    simp only [actorRun, List.mem_append] at hu ⊢
    rcases hu with hu | hu
    · -- broadcast produced by this step: the merge performed by this
      -- very step installs every category of `u` into lastUpdate, and
      -- presence is preserved by the rest of the run
      have hstep : (actorStep p.1 st p.2).1.lastUpdate.hasCat c = true := by
        cases hcmd : p.2 with
        | addClient => rw [hcmd] at hu; simp [actorStep] at hu
        | removeClient id => rw [hcmd] at hu; simp [actorStep] at hu
        | changed m pending =>
          rw [hcmd] at hu
          simp only [actorStep] at hu ⊢
          by_cases hd : ((constructUpdate p.1 (drainMasks m pending)).diff
              st.lastUpdate).2 = true
          · rw [if_pos hd] at hu ⊢
            simp only [List.mem_cons, List.not_mem_nil, or_false] at hu
            rcases hu with hu | hu
            · exact absurd hu (by simp)
            · cases hu
              exact merge_hasCat_right _ _ _ hc
          · rw [if_neg hd] at hu
            simp at hu
      exact actorRun_lastUpdate_hasCat _ rest c hstep
    · exact ih _ u hu c hc

theorem admission_frozen (prog : List ChanOp)
    (hhead : prog.head? = some (ChanOp.recv ChanName.replyChan))
    (s : AdmissionState) (h : AdmissionReachable prog s) :
    s = admissionInit prog := by
  induction h with
  | init => rfl
  | step s t hs hstep ih =>
    subst ih
    cases hstep with
    | callerSend rest hc =>
      rw [show (admissionInit prog).caller = prog from rfl] at hc
      rw [hc] at hhead
      simp at hhead
    | callerRecv rest hc hr =>
      exact absurd hr (by simp [admissionInit])
    | actorServe hq =>
      exact absurd hq (by simp [admissionInit])

theorem normalizeDegrees_nonneg (d : ℚ) : 0 ≤ normalizeDegrees d := by
  rw [normalizeDegrees]
  split
  · exact normalizeDegrees_nonneg (d + 360)
  · linarith
termination_by (⌈-d⌉).toNat
decreasing_by
  rename_i h
  have h1 : (0 : ℚ) < -d := by linarith
  have h2 : (0 : ℤ) < ⌈-d⌉ := Int.ceil_pos.mpr h1
  have h3 : -(d + 360) = -d - (360 : ℤ) := by push_cast; ring
  have h4 : ⌈-(d + 360)⌉ = ⌈-d⌉ - 360 := by
    rw [h3, Int.ceil_sub_int]
  omega

theorem goMod_nonneg_lt (x : ℚ) : 0 ≤ goMod x 360 ∧ goMod x 360 < 360 := by
  have h1 : ((⌊x / 360⌋ : ℚ)) ≤ x / 360 := Int.floor_le _
  have h2 : x / 360 < ⌊x / 360⌋ + 1 := Int.lt_floor_add_one _
  have h3 : (360 : ℚ) * (x / 360) = x := by ring_nf
  constructor
  · have := mul_le_mul_of_nonneg_left h1 (by norm_num : (0 : ℚ) ≤ 360)
    rw [h3] at this
    simp only [goMod]
    linarith
  · have := mul_lt_mul_of_pos_left h2 (by norm_num : (0 : ℚ) < 360)
    rw [h3] at this
    simp only [goMod]
    linarith

theorem cardinalIndex_bounds (d : ℚ) :
    0 ≤ cardinalIndex d ∧ cardinalIndex d < 16 := by
  have hm := goMod_nonneg_lt (normalizeDegrees d + 11.25)
  constructor
  · exact Int.floor_nonneg.mpr (div_nonneg hm.1 (by norm_num))
  · have hlt : goMod (normalizeDegrees d + 11.25) 360 / 22.5 < ((16 : ℤ) : ℚ) := by
      rw [div_lt_iff₀ (by norm_num : (0 : ℚ) < 22.5)]
      push_cast
      linarith [hm.2]
    exact Int.floor_lt.mpr hlt

/-! ## Claim theorems -/

/-- C1: the claim says the five DataSource constants are distinct
nonzero single bits.  The source declares them as `iota << 1`
(0, 2, 4, 6, 8): Burble's flag is zero — so `source&BurbleDataSource != 0`
never holds and `constructUpdate` can never include the Loads category,
although `processUpdates` explicitly ORs `BurbleDataSource` into its
baseline mask intending it to — and WindsAloft's flag 6 has nonzero
overlap with both Jumprun (2) and METAR (4), being exactly their OR.
This theorem evaluates the code at those failing inputs. -/
theorem dataSourceFlags_not_distinct_bits :
    BurbleDataSource = 0 ∧
    JumprunDataSource &&& WindsAloftDataSource = JumprunDataSource ∧
    METARDataSource &&& WindsAloftDataSource = METARDataSource ∧
    WindsAloftDataSource = JumprunDataSource ||| METARDataSource ∧
    ∀ env source, (constructUpdate env source).loads = none := by
  refine ⟨by decide, by decide, by decide, by decide, fun env source => ?_⟩
  simp [constructUpdate, BurbleDataSource, Nat.zero_shiftLeft, Nat.and_zero]

/-- C2 counterexample: the claim says merging the emitted diff into the
previous LastBroadcast overwrites each category present in the diff with
the diff's value (the loads list replaced, not extended).  On the code,
`proto.Merge` appends list fields: starting from a LastBroadcast whose
loads list is `[sampleLoadA]` and a genuine emitted diff whose loads
list is `[sampleLoadB]`, the merged loads category is
`[sampleLoadA, sampleLoadB]`, not the diff's `[sampleLoadB]`. -/
theorem merge_extends_loads_counterexample :
    (exCand.diff exLast).2 = true ∧
    (exCand.diff exLast).1 = exCand ∧
    (mergeManifestUpdate exLast (exCand.diff exLast).1).loads ≠ exCand.loads ∧
    (mergeManifestUpdate exLast (exCand.diff exLast).1).loads =
      some { columnCount := 2, loads := [sampleLoadA, sampleLoadB] } := by
  decide

/-- C2 (amended): merging the emitted diff into LastBroadcast leaves
every category absent from the diff unmodified and combines each
present category by protobuf merge semantics — scalar fields are
overwritten only when the diff's value is non-default and list fields
are appended, so the merged loads category is the previous list
followed by the diff's list (extended, not replaced); a category is
present in the merged state iff it was present in either input. -/
theorem merge_semantics_amended (s d : ManifestUpdate) (w v : Loads)
    (hw : s.loads = some w) (hv : d.loads = some v) :
    (mergeManifestUpdate s d).loads =
      some { columnCount := mergeInt w.columnCount v.columnCount,
             loads := w.loads ++ v.loads } ∧
    (d.status = none → (mergeManifestUpdate s d).status = s.status) ∧
    (d.options = none → (mergeManifestUpdate s d).options = s.options) ∧
    (d.jumprun = none → (mergeManifestUpdate s d).jumprun = s.jumprun) ∧
    (d.windsAloft = none →
      (mergeManifestUpdate s d).windsAloft = s.windsAloft) ∧
    ∀ c, (mergeManifestUpdate s d).hasCat c = (s.hasCat c || d.hasCat c) := by
  refine ⟨?_, ?_, ?_, ?_, ?_, merge_hasCat s d⟩
  · simp [mergeManifestUpdate, mergeOpt, mergeLoads, hw, hv]
  · intro h; simp [mergeManifestUpdate, mergeOpt, h]
  · intro h; simp [mergeManifestUpdate, mergeOpt, h]
  · intro h; simp [mergeManifestUpdate, mergeOpt, h]
  · intro h; simp [mergeManifestUpdate, mergeOpt, h]

/-- Witness for the amended C2 theorem at the counterexample's inputs. -/
theorem merge_semantics_amended_witness :
    (mergeManifestUpdate exLast exCand).loads =
      some { columnCount := mergeInt 2 2,
             loads := [sampleLoadA] ++ [sampleLoadB] } :=
  (merge_semantics_amended exLast exCand
    { columnCount := 2, loads := [sampleLoadA] }
    { columnCount := 2, loads := [sampleLoadB] } rfl rfl).1

/-- C3: the claim says `addClient`/`removeClient` are synchronous
round-trips with the actor that always complete.  In the source neither
function ever sends its request on the admission channel: it only
blocks reading the freshly made reply channel, which the actor never
learns about, so in every reachable state of the caller/actor system
the call is still stuck at its first operation, nothing was ever
queued or delivered, and no reply was ever produced. -/
theorem admission_request_never_sent (s : AdmissionState) :
    (AdmissionReachable addClientOps s →
      s.caller = addClientOps ∧ s.queued = 0 ∧
        s.delivered = false ∧ s.replies = 0) ∧
    (AdmissionReachable removeClientOps s →
      s.caller = removeClientOps ∧ s.queued = 0 ∧
        s.delivered = false ∧ s.replies = 0) := by
  constructor <;> intro h
  · have he := admission_frozen addClientOps rfl s h
    subst he
    exact ⟨rfl, rfl, rfl, rfl⟩
  · have he := admission_frozen removeClientOps rfl s h
    subst he
    exact ⟨rfl, rfl, rfl, rfl⟩

/-- Witness: the initial state of an `addClient` call is reachable and
already exhibits the stuck configuration. -/
theorem admission_request_never_sent_witness :
    (admissionInit addClientOps).caller = addClientOps ∧
      (admissionInit addClientOps).queued = 0 ∧
      (admissionInit addClientOps).delivered = false ∧
      (admissionInit addClientOps).replies = 0 :=
  (admission_request_never_sent (admissionInit addClientOps)).1
    AdmissionReachable.init

/-- C4: the diff pass removes a candidate category exactly when it is
structurally equal to the corresponding LastBroadcast category and
keeps it (differing or newly introduced) otherwise; the returned flag
is false exactly when nothing remains, in which case the actor delivers
nothing to any subscriber; when something remains the pruned candidate
itself is what every subscriber receives. -/
theorem diff_emits_exactly_changed_categories (x y : ManifestUpdate)
    (env : Env) (st : ActorState) (m : Nat) (pending : List Nat) :
    ((x.diff y).1.status = if x.status = y.status then none else x.status) ∧
    ((x.diff y).1.options = if x.options = y.options then none else x.options) ∧
    ((x.diff y).1.jumprun = if x.jumprun = y.jumprun then none else x.jumprun) ∧
    ((x.diff y).1.windsAloft =
      if x.windsAloft = y.windsAloft then none else x.windsAloft) ∧
    ((x.diff y).1.loads = if x.loads = y.loads then none else x.loads) ∧
    ((x.diff y).2 = false ↔ (x.diff y).1 = emptyUpdate) ∧
    (((constructUpdate env (drainMasks m pending)).diff st.lastUpdate).2 = false →
      (actorStep env st (Command.changed m pending)).1 = st ∧
      (actorStep env st (Command.changed m pending)).2.filter Event.isBroadcast
        = []) ∧
    (((constructUpdate env (drainMasks m pending)).diff st.lastUpdate).2 = true →
      (actorStep env st (Command.changed m pending)).2 =
        [Event.computeUpdate (drainMasks m pending),
         Event.broadcast
           ((constructUpdate env (drainMasks m pending)).diff st.lastUpdate).1] ∧
      (actorStep env st (Command.changed m pending)).1.clients =
        st.clients.map fun cl =>
          (cl.1, cl.2 ++
            [((constructUpdate env (drainMasks m pending)).diff
                st.lastUpdate).1])) := by
  refine ⟨?_, ?_, ?_, ?_, ?_, diff_snd_false_iff x y, ?_, ?_⟩
  · rw [diff_fst]
  · rw [diff_fst]
  · rw [diff_fst]
  · rw [diff_fst]
  · rw [diff_fst]
  · intro h
    simp only [actorStep]
    rw [if_neg (by simp [h])]
    exact ⟨rfl, rfl⟩
  · intro h
    simp only [actorStep]
    rw [if_pos h]
    exact ⟨rfl, rfl⟩

/-- Witness for C4: with the candidate constructed from the same
producer values as the current LastBroadcast, the diff is empty and the
actor's state is untouched. -/
theorem diff_emits_exactly_changed_categories_witness :
    (actorStep sampleEnv (actorInit sampleEnv OptionsDataSource)
        (Command.changed OptionsDataSource [])).1 =
      actorInit sampleEnv OptionsDataSource :=
  ((diff_emits_exactly_changed_categories emptyUpdate emptyUpdate sampleEnv
      (actorInit sampleEnv OptionsDataSource) OptionsDataSource
      []).2.2.2.2.2.2.1 (by decide)).1

/-- C5: after any actor history starting from the initial state,
admitting a subscriber replies with `clientID + 1` and then pushes the
current `lastUpdate` in the same atomic loop iteration (so before any
other command); the assigned identifier is strictly greater than every
previously assigned identifier and than every identifier in the
registry, the new subscriber's queue consists of exactly the baseline,
and that baseline contains every category ever carried by a broadcast
diff of the history. -/
theorem admission_fresh_id_and_full_baseline (env0 : Env) (isrc : Nat)
    (tr : List (Env × Command)) (env : Env) :
    (actorStep env (actorRun (actorInit env0 isrc) tr).1 Command.addClient).2 =
      [Event.addReply ((actorRun (actorInit env0 isrc) tr).1.clientID + 1),
       Event.pushBaseline ((actorRun (actorInit env0 isrc) tr).1.clientID + 1)
         (actorRun (actorInit env0 isrc) tr).1.lastUpdate] ∧
    (actorStep env (actorRun (actorInit env0 isrc) tr).1
        Command.addClient).1.clients =
      (actorRun (actorInit env0 isrc) tr).1.clients ++
        [((actorRun (actorInit env0 isrc) tr).1.clientID + 1,
          [(actorRun (actorInit env0 isrc) tr).1.lastUpdate])] ∧
    (∀ i ∈ assignedIds (actorRun (actorInit env0 isrc) tr).2,
      i < (actorRun (actorInit env0 isrc) tr).1.clientID + 1) ∧
    (∀ p ∈ (actorRun (actorInit env0 isrc) tr).1.clients,
      p.1 < (actorRun (actorInit env0 isrc) tr).1.clientID + 1) ∧
    (∀ u, Event.broadcast u ∈ (actorRun (actorInit env0 isrc) tr).2 →
      ∀ c, u.hasCat c = true →
        (actorRun (actorInit env0 isrc) tr).1.lastUpdate.hasCat c = true) := by
  refine ⟨rfl, rfl, ?_, ?_, actorRun_broadcast_hasCat _ tr⟩
  · intro i hi
    exact Nat.lt_succ_of_le (actorRun_assigned _ tr i hi).2
  · intro p hp
    refine Nat.lt_succ_of_le
      (actorRun_registry_bound (actorInit env0 isrc) tr ?_ p hp)
    intro q hq
    simp [actorInit] at hq

/-- Witness for C5 after a one-admission history. -/
theorem admission_fresh_id_and_full_baseline_witness :
    (actorStep sampleEnv
        (actorRun (actorInit sampleEnv OptionsDataSource)
          [(sampleEnv, Command.addClient)]).1 Command.addClient).2 =
      [Event.addReply
         ((actorRun (actorInit sampleEnv OptionsDataSource)
            [(sampleEnv, Command.addClient)]).1.clientID + 1),
       Event.pushBaseline
         ((actorRun (actorInit sampleEnv OptionsDataSource)
            [(sampleEnv, Command.addClient)]).1.clientID + 1)
         (actorRun (actorInit sampleEnv OptionsDataSource)
            [(sampleEnv, Command.addClient)]).1.lastUpdate] :=
  (admission_fresh_id_and_full_baseline sampleEnv OptionsDataSource
    [(sampleEnv, Command.addClient)] sampleEnv).1

/-- C6: the claim says a coordinates error only skips the current
scheduler tick and a later tick still fires the transitions.  In the
source the goroutine `return`s on the error, so the loop processes no
further ticks at all: with an error tick followed by a tick whose time
has passed both events on a fresh date, nothing ever fires — while the
same valid tick alone fires both transitions. -/
theorem scheduler_exits_on_location_error :
    (∀ st rest, runSched st (none :: rest) = (st, 0, 0)) ∧
    runSched schedInit [none, some goodTick] = (schedInit, 0, 0) ∧
    runSched schedInit [some goodTick] =
      ({ lastSunrise := [2026, 10, 11], lastSunset := [2026, 10, 11] },
        1, 1) := by
  exact ⟨fun st rest => rfl, by decide, by decide⟩

/-- C7: a transition fires on a tick exactly when the current time has
reached the computed event instant and the stored `[y,m,d]` marker
differs from the event's date; firing records the event's date in the
marker; consequently, over any run of ticks whose computed sunset
(resp. sunrise) dates all fall on one calendar day, each transition
fires at most once, independently of how many ticks occur. -/
theorem sunrise_sunset_at_most_once_per_day (st : SchedState)
    (i : TickInput) (ticks : List TickInput) (dset dris : List Int)
    (hset : ∀ t ∈ ticks, t.sunsetDate = dset)
    (hris : ∀ t ∈ ticks, t.sunriseDate = dris) :
    ((schedTick st i).2.1 = true ↔
      i.sunset ≤ i.now ∧ st.lastSunset ≠ i.sunsetDate) ∧
    ((schedTick st i).2.2 = true ↔
      i.sunrise ≤ i.now ∧ st.lastSunrise ≠ i.sunriseDate) ∧
    ((schedTick st i).2.1 = true →
      (schedTick st i).1.lastSunset = i.sunsetDate) ∧
    ((schedTick st i).2.2 = true →
      (schedTick st i).1.lastSunrise = i.sunriseDate) ∧
    sunsetCount st ticks ≤ 1 ∧ sunriseCount st ticks ≤ 1 := by
  refine ⟨?_, ?_, ?_, ?_, sunsetCount_le_one st ticks dset hset,
    sunriseCount_le_one st ticks dris hris⟩
  · rw [schedTick_sunsetFired]
    simp
  · rw [schedTick_sunriseFired]
    simp
  · intro h
    rw [schedTick_sunsetFired] at h
    rw [schedTick_lastSunset, h]
    simp
  · intro h
    rw [schedTick_sunriseFired] at h
    rw [schedTick_lastSunrise, h]
    simp

/-- Witness for C7: two ticks past the events on the same day fire each
transition at most once. -/
theorem sunrise_sunset_at_most_once_per_day_witness :
    sunsetCount schedInit [goodTick, goodTick] ≤ 1 ∧
    sunriseCount schedInit [goodTick, goodTick] ≤ 1 := by
  have h := sunrise_sunset_at_most_once_per_day schedInit goodTick
    [goodTick, goodTick] [2026, 10, 11] [2026, 10, 11]
    (by decide) (by decide)
  exact ⟨h.2.2.2.2.1, h.2.2.2.2.2⟩

/-- C8: processing one change notification with N-1 further
notifications already queued performs exactly one update construction
and diff computation, whose mask is the bitwise union of all the queued
bitmasks. -/
theorem notifications_coalesce_into_one_computation (env : Env)
    (st : ActorState) (m : Nat) (pending : List Nat) :
    (actorStep env st (Command.changed m pending)).2.filterMap
        Event.computedMask = [drainMasks m pending] ∧
    ∀ k, (drainMasks m pending).testBit k =
      (m.testBit k || pending.any fun s => s.testBit k) := by
  refine ⟨?_, drainMasks_testBit m pending⟩
  simp only [actorStep]
  split <;> simp [Event.computedMask]

/-- Witness for C8 on a queue of three notifications. -/
theorem notifications_coalesce_into_one_computation_witness :
    (actorStep sampleEnv (actorInit sampleEnv 0)
        (Command.changed METARDataSource
          [JumprunDataSource, SettingsDataSource])).2.filterMap
      Event.computedMask =
      [drainMasks METARDataSource [JumprunDataSource, SettingsDataSource]] :=
  (notifications_coalesce_into_one_computation sampleEnv
    (actorInit sampleEnv 0) METARDataSource
    [JumprunDataSource, SettingsDataSource]).1

/-- C9: the claim says the legacy winds-aloft endpoint is regenerated
only when the coalesced mask includes the WindsAloft category and the
jump-run endpoint only when it includes Jumprun.  Because the flag
constants overlap (WindsAloft's 6 = Jumprun's 2 | METAR's 4), a batch
carrying only METAR and Jumprun notifications regenerates the
winds-aloft content, and a batch carrying only a WindsAloft
notification regenerates the jump-run content. -/
theorem legacy_regen_on_foreign_categories :
    legacyStep METARDataSource [JumprunDataSource] =
      { windsAloftRegen := true, jumprunRegen := true,
        manifestRegen := true } ∧
    legacyStep WindsAloftDataSource [] =
      { windsAloftRegen := true, jumprunRegen := true,
        manifestRegen := true } := by
  decide

/-- Under exact arithmetic the normalized value is non-negative, the
table index lies in `0..15`, and the slice access is in bounds. -/
theorem cardinalIndex_in_table_exact (d : ℚ) :
    0 ≤ normalizeDegrees d ∧
    0 ≤ cardinalIndex d ∧ cardinalIndex d < 16 ∧
    ∃ s, CardinalDirection d = some s ∧ s ∈ cardinalDirections := by
  obtain ⟨hlo, hhi⟩ := cardinalIndex_bounds d
  refine ⟨normalizeDegrees_nonneg d, hlo, hhi, ?_⟩
  have hlen : (cardinalIndex d).toNat < cardinalDirections.length := by
    have : cardinalDirections.length = 16 := rfl
    omega
  refine ⟨cardinalDirections.get ⟨(cardinalIndex d).toNat, hlen⟩, ?_,
    List.get_mem _ _ _⟩
  rw [CardinalDirection, goSliceIndex, if_neg (by omega)]
  exact List.get?_eq_get hlen

/-- The float64 addition `-1e20 + 360.0` is absorbed: `-1e20` sits in
the binade with ulp `2^14 = 16384`, the exact sum is 360 away from
`-1e20` and 16024 away from the next representable value, so rounding
to nearest returns `-1e20` itself. -/
theorem fadd360e20_fixed : fadd360e20 (-(10 ^ 20 : ℚ)) = -(10 ^ 20) := by
  unfold fadd360e20 roundAtUlp
  have h : (-(10 ^ 20 : ℚ) + 360) / 2 ^ 14 = -6103515625000000 + 45 / 2048 := by
    norm_num
  rw [h, round_eq]
  have h1 : (-6103515625000000 : ℚ) + 45 / 2048 + 1 / 2
      = (-6103515625000000 : ℤ) + (1069 : ℚ) / 2048 := by
    push_cast; ring
  rw [h1, Int.floor_int_add]
  have h2 : ⌊(1069 : ℚ) / 2048⌋ = 0 := by
    rw [Int.floor_eq_iff]
    norm_num
  rw [h2]
  norm_num

/-- C10 counterexample: the claim says `CardinalDirection` terminates
for every finite input.  At the finite float64 input `-1e20` the
rounded addition `degrees += 360.0` returns its argument unchanged, so
the normalization loop makes no progress in any number of iterations:
the float-faithful loop is still running (`none`) after every budget of
steps, refuting termination at this input. -/
theorem cardinalDirection_diverges_at_minus_1e20 :
    fadd360e20 (-(10 ^ 20 : ℚ)) = -(10 ^ 20) ∧
    ∀ fuel, normalizeFloatLoop fadd360e20 fuel (-(10 ^ 20 : ℚ)) = none := by
  refine ⟨fadd360e20_fixed, ?_⟩
  intro fuel
  induction fuel with
  | zero =>
    rw [normalizeFloatLoop, if_pos (by norm_num)]
  | succ n ih =>
    rw [normalizeFloatLoop, if_pos (by norm_num), fadd360e20_fixed]
    exact ih

/-- C10 (amended): a non-negative input exits the normalization loop
immediately — no iteration and no float arithmetic is performed, so
this holds under the real float64 semantics whatever the rounded
addition does — and under exact arithmetic every input yields a
non-negative normalized value and an index in `0..15`, so the slice
access is in bounds and returns one of the sixteen cardinal-direction
strings; termination for every finite input, however, fails (see the
counterexample at `-1e20`). -/
theorem cardinalDirection_in_table_when_loop_exits (e : ℚ) (he : 0 ≤ e)
    (step : ℚ → ℚ) (fuel : Nat) (d : ℚ) :
    normalizeFloatLoop step fuel e = some e ∧
    normalizeDegrees e = e ∧
    0 ≤ normalizeDegrees d ∧
    0 ≤ cardinalIndex d ∧ cardinalIndex d < 16 ∧
    ∃ s, CardinalDirection d = some s ∧ s ∈ cardinalDirections := by
  obtain ⟨h1, h2, h3, h4⟩ := cardinalIndex_in_table_exact d
  refine ⟨?_, ?_, h1, h2, h3, h4⟩
  · cases fuel <;>
      rw [normalizeFloatLoop, if_neg (not_lt.mpr he)]
  · rw [normalizeDegrees, if_neg (not_lt.mpr he)]

/-- Witness for the amended C10 theorem at the non-negative input 90
and the exercising input -45. -/
theorem cardinalDirection_in_table_when_loop_exits_witness :
    normalizeFloatLoop fadd360e20 3 (90 : ℚ) = some 90 ∧
    normalizeDegrees (90 : ℚ) = 90 ∧
    0 ≤ normalizeDegrees (-45 : ℚ) ∧
    0 ≤ cardinalIndex (-45 : ℚ) ∧ cardinalIndex (-45 : ℚ) < 16 ∧
    ∃ s, CardinalDirection (-45 : ℚ) = some s ∧ s ∈ cardinalDirections :=
  cardinalDirection_in_table_when_loop_exits 90 (by norm_num) fadd360e20 3
    (-45)

end ManifestServer
